import Mathlib

/-!
Verification of the consent-banner widget
(static/js/consent-banner-loader.js and static/js/consent.js).

The DOM is modelled shallowly: an element is a tag (stored in the canonical
uppercase form that the DOM tagName property reports for HTML elements),
an ordered attribute list (names unique, as the DOM guarantees), and a child
forest; a document or fragment is a forest of nodes (the children of body,
respectively of the fragment root).  Browser string primitives used by the
source (trim, case-insensitive regexp tests) are re-implemented over
character lists so that all definitions reduce inside the kernel.
Tree-walking functions are written as single recursions over forests that
also descend into the head's children; this matches the effect of the
source's querySelectorAll traversals (which snapshot elements in document
order before mutating, so that detached subtrees are edited without any
observable effect on the fragment).
-/

inductive Node where
  | elem (tag : String) (attrs : List (String × String)) (children : List Node)
  | text (s : String)

/-- getAttribute: first attribute with the given name (names are unique in a
real DOM element, so first-match is exact). -/
def attrLookup (attrs : List (String × String)) (name : String) : Option String :=
  (attrs.find? (fun p => p.1 == name)).map (fun p => p.2)

/-- id attribute of a node, none for text nodes. -/
def nodeId : Node → Option String
  | .elem _ a _ => attrLookup a "id"
  | .text _ => none

def nodeChildren : Node → List Node
  | .elem _ _ ch => ch
  | .text _ => []

def nodeAttrs : Node → List (String × String)
  | .elem _ a _ => a
  | .text _ => []

/-- ASCII lower-casing of a character, as the case-insensitive regexp flags of
the source compare ASCII letters. -/
def lowerChar (c : Char) : Char :=
  if 'A' ≤ c && c ≤ 'Z' then Char.ofNat (c.toNat + 32) else c

def jsLowerL (l : List Char) : List Char := l.map lowerChar

/-- Whitespace characters matched by the \s class and by String.prototype.trim
(ASCII subset; the exotic Unicode space code points are immaterial here). -/
def isJsSpace (c : Char) : Bool :=
  c == ' ' || c == '\t' || c == '\n' || c == '\r' || c == '\x0c' || c == '\x0b'

/-- JavaScript String.prototype.trim. -/
def jsTrim (s : String) : String :=
  String.mk (((s.data.dropWhile isJsSpace).reverse.dropWhile isJsSpace).reverse)

/-- Case-insensitive test that s starts with the (lowercase) pattern p, i.e.
the regexp test \x7b/^p/i\x7d.test(s). -/
def lowerStartsWith (s : String) (p : List Char) : Bool :=
  p.isPrefixOf (jsLowerL s.data)

/-- Attribute names matched by /^on/i in sanitizeFragment. -/
def isEventHandlerAttr (n : String) : Bool :=
  lowerStartsWith n ['o', 'n']

/-- Attribute names matched by /^(href|src)$/i in sanitizeFragment. -/
def isUrlAttr (n : String) : Bool :=
  jsLowerL n.data == ['h', 'r', 'e', 'f'] || jsLowerL n.data == ['s', 'r', 'c']

/-- Values matched by /^\s*javascript:/i or /^\s*data:text\/html/i. -/
def isDangerousUrl (v : String) : Bool :=
  let t := String.mk (v.data.dropWhile isJsSpace)
  lowerStartsWith t ['j', 'a', 'v', 'a', 's', 'c', 'r', 'i', 'p', 't', ':'] ||
    lowerStartsWith t ['d', 'a', 't', 'a', ':', 't', 'e', 'x', 't', '/', 'h', 't', 'm', 'l']

/-- ALLOWED_TAGS of sanitizeFragment: the object lookup is by the exact
uppercase tagName. -/
def allowedTag (t : String) : Bool :=
  ["DIV", "P", "SPAN", "BUTTON", "A", "UL", "LI", "INPUT", "LABEL",
    "SECTION", "ARTICLE", "FORM"].contains t

/-- Decision of the backwards attribute loop of sanitizeFragment: an attribute
survives iff it is not an inline event handler and not an href/src holding a
script-scheme or HTML-data URL.  (Iterating the live attribute collection from
the last index down visits every attribute exactly once, so the loop is a
filter.) -/
def keepAttr (p : String × String) : Bool :=
  !(isEventHandlerAttr p.1) && !(isUrlAttr p.1 && isDangerousUrl p.2)

def sanitizeAttrs (a : List (String × String)) : List (String × String) :=
  a.filter keepAttr

/-- First pass of sanitizeFragment: querySelectorAll("script") + removeChild,
i.e. every script element (with its subtree) is removed from the forest. -/
def removeScripts : List Node → List Node
  | [] => []
  | .text s :: ns => .text s :: removeScripts ns
  | .elem tg a ch :: ns =>
    if tg == "SCRIPT" then removeScripts ns
    else .elem tg a (removeScripts ch) :: removeScripts ns

/-- Second pass of sanitizeFragment: every element whose tagName is not in
ALLOWED_TAGS is removed together with its subtree; surviving elements get
their attribute list filtered by keepAttr.  The source iterates a static
querySelectorAll("*") snapshot, so elements inside an already removed subtree
are still visited, but mutating those detached elements cannot be observed in
the fragment; the net effect is this recursion. -/
def whitelistPass : List Node → List Node
  | [] => []
  | .text s :: ns => .text s :: whitelistPass ns
  | .elem tg a ch :: ns =>
    if allowedTag tg then .elem tg (sanitizeAttrs a) (whitelistPass ch) :: whitelistPass ns
    else whitelistPass ns

/-- sanitizeFragment of the loader, acting on the child forest of the root it
is given (querySelectorAll only returns descendants, never the root). -/
def sanitizeFragment (f : List Node) : List Node :=
  whitelistPass (removeScripts f)

/-- sanitizeFragment applied to an element root, as done to the cloned toast
node in injectToastFromHtml: only the descendants are sanitized, the root
element itself keeps its tag and attributes. -/
def sanitizeRoot : Node → Node
  | .elem tg a ch => .elem tg a (sanitizeFragment ch)
  | .text s => .text s

/-- No script element anywhere in the forest. -/
def noScriptsF : List Node → Bool
  | [] => true
  | .text _ :: ns => noScriptsF ns
  | .elem tg _ ch :: ns => !(tg == "SCRIPT") && noScriptsF ch && noScriptsF ns

/-- Every element tag in the forest is on the allow-list. -/
def tagsAllowedF : List Node → Bool
  | [] => true
  | .text _ :: ns => tagsAllowedF ns
  | .elem tg _ ch :: ns => allowedTag tg && tagsAllowedF ch && tagsAllowedF ns

/-- No element in the forest carries an on* attribute. -/
def noHandlerAttrsF : List Node → Bool
  | [] => true
  | .text _ :: ns => noHandlerAttrsF ns
  | .elem _ a ch :: ns =>
    a.all (fun p => !(isEventHandlerAttr p.1)) && noHandlerAttrsF ch && noHandlerAttrsF ns

/-- No element in the forest carries an href/src attribute with a dangerous
scheme. -/
def noBadUrlAttrsF : List Node → Bool
  | [] => true
  | .text _ :: ns => noBadUrlAttrsF ns
  | .elem _ a ch :: ns =>
    a.all (fun p => !(isUrlAttr p.1 && isDangerousUrl p.2)) && noBadUrlAttrsF ch && noBadUrlAttrsF ns

inductive JsonVal where
  | null
  | bool (b : Bool)
  | num (n : Int)
  | str (s : String)
  | arr (elems : List JsonVal)
  | obj (keys : List String) (vals : List JsonVal)

/-- JavaScript truthiness of a parsed JSON value. -/
def truthyJson : JsonVal → Bool
  | .null => false
  | .bool b => b
  | .num n => !(n == 0)
  | .str s => !(s == "")
  | .arr _ => true
  | .obj _ _ => true

/-- The typeof j === "object" test (true for null, arrays and objects). -/
def jsTypeofObject : JsonVal → Bool
  | .null => true
  | .arr _ => true
  | .obj _ _ => true
  | _ => false

/-- The for-in loop of hasConsentCookie: some enumerable member value is
truthy (object keys, or array indices; primitives have no own enumerable
members). -/
def forInAnyTruthy : JsonVal → Bool
  | .obj _ vals => vals.any truthyJson
  | .arr xs => xs.any truthyJson
  | _ => false

/-- hasConsentCookie of the loader.  The cookie value arrives as
Option String (none: cookie absent, getCookie returned null); the falsy test
!v also catches the empty string.  A parse failure falls through to the final
return false. -/
def hasConsentCookie (v : Option String) (jparse : String → Option JsonVal) : Bool :=
  match v with
  | none => false
  | some s =>
    if s == "" then false
    else if s == "1" || s == "true" then true
    else
      match jparse s with
      | none => false
      | some j => if truthyJson j && jsTypeofObject j then forInAnyTruthy j else false

/-- Concrete strict-JSON oracle used by witnesses: accepts exactly one object
literal and rejects everything else. -/
def demoJsonParse : String → Option JsonVal :=
  fun s =>
    if s == "\x7b\"analytics\":true\x7d" then some (.obj ["analytics"] [.bool true])
    else none


/-- Number of nodes in the forest whose id attribute equals i. -/
def countId (i : String) : List Node → Nat
  | [] => 0
  | .text _ :: ns => countId i ns
  | .elem _ a ch :: ns =>
    (if attrLookup a "id" = some i then 1 else 0) + countId i ch + countId i ns

/-- Whether some node in the forest has id i. -/
def containsIdF (i : String) : List Node → Bool
  | [] => false
  | .text _ :: ns => containsIdF i ns
  | .elem _ a ch :: ns =>
    attrLookup a "id" == some i || containsIdF i ch || containsIdF i ns

/-- document.getElementById: the first node in document (preorder) order whose
id attribute is i. -/
def findByIdF (i : String) : List Node → Option Node
  | [] => none
  | .text _ :: ns => findByIdF i ns
  | .elem tg a ch :: ns =>
    if attrLookup a "id" == some i then some (.elem tg a ch)
    else
      match findByIdF i ch with
      | some n => some n
      | none => findByIdF i ns

/-- parentNode.removeChild(node) for the first node in preorder with id i;
the document is unchanged when no node has that id. -/
def removeFirstById (i : String) : List Node → List Node
  | [] => []
  | .text s :: ns => .text s :: removeFirstById i ns
  | .elem tg a ch :: ns =>
    if attrLookup a "id" == some i then ns
    else if containsIdF i ch then .elem tg a (removeFirstById i ch) :: ns
    else .elem tg a ch :: removeFirstById i ns

/-- In-place mutation of the first node in preorder with id i (models holding
a live reference to the element found by getElementById). -/
def mapFirstById (i : String) (f : Node → Node) : List Node → List Node
  | [] => []
  | .text s :: ns => .text s :: mapFirstById i f ns
  | .elem tg a ch :: ns =>
    if attrLookup a "id" == some i then f (.elem tg a ch) :: ns
    else if containsIdF i ch then .elem tg a (mapFirstById i f ch) :: ns
    else .elem tg a ch :: mapFirstById i f ns

def BANNER_SLOT_ID : String := "consent-banner-slot"

def BANNER_ID : String := "consent-banner"

def TOASTS_ID : String := "app-toasts"

/-- removeBanner of the loader: remove the banner node, then remove the slot
when it exists and has no child nodes left. -/
def removeBanner (doc : List Node) : List Node :=
  let d1 := removeFirstById BANNER_ID doc
  match findByIdF BANNER_SLOT_ID d1 with
  | some slot => if (nodeChildren slot).isEmpty then removeFirstById BANNER_SLOT_ID d1 else d1
  | none => d1

/-- Node.isEqualNode on attribute lists: equal sizes and every attribute of
one has an equal attribute in the other (attribute order is ignored). -/
def attrsSetEq (a b : List (String × String)) : Bool :=
  a.length == b.length && a.all (fun p => b.contains p)

/-- Node.isEqualNode lifted to forests: pairwise structural equality, with
attribute order ignored on elements. -/
def nodesEqualB : List Node → List Node → Bool
  | [], [] => true
  | .text s :: xs, .text t :: ys => s == t && nodesEqualB xs ys
  | .elem tg a ch :: xs, .elem tg2 a2 ch2 :: ys =>
    tg == tg2 && attrsSetEq a a2 && nodesEqualB ch ch2 && nodesEqualB xs ys
  | _, _ => false

/-- oldBanner.isEqualNode(newBanner). -/
def isEqualNode (x y : Node) : Bool := nodesEqualB [x] [y]

/-- fragment.firstElementChild: the first direct child that is an element. -/
def firstElemChild : List Node → Option Node
  | [] => none
  | .elem tg a ch :: _ => some (.elem tg a ch)
  | .text _ :: ns => firstElemChild ns

/-- Preorder path of the first node with id i (index into the forest, then
indices into successive child lists). -/
def findPathByIdAux (i : String) (idx : Nat) : List Node → Option (List Nat)
  | [] => none
  | .text _ :: ns => findPathByIdAux i (idx + 1) ns
  | .elem _ a ch :: ns =>
    if attrLookup a "id" == some i then some [idx]
    else
      match findPathByIdAux i 0 ch with
      | some p => some (idx :: p)
      | none => findPathByIdAux i (idx + 1) ns

def findPathById (i : String) (ns : List Node) : Option (List Nat) :=
  findPathByIdAux i 0 ns

/-- Replace the child list of the element at the given path. -/
def setChildrenAtPath : List Nat → List Node → List Node → List Node
  | [], _, doc => doc
  | [i], cs, doc =>
    match doc.get? i with
    | some (.elem tg a _) => doc.set i (.elem tg a cs)
    | _ => doc
  | i :: p, cs, doc =>
    match doc.get? i with
    | some (.elem tg a ch) => doc.set i (.elem tg a (setChildrenAtPath p cs ch))
    | _ => doc

/-- Which element ensureSlot hands back: the slot found by its id (or freshly
created with that id), the body (when the stray banner sits at top level and
its parentElement is body), or the unnamed parent element of a nested stray
banner. -/
inductive SlotRef where
  | byId
  | body
  | parentPath (p : List Nat)

/-- The div ensureSlot creates and appends to body when neither slot nor
banner exists. -/
def freshSlot : Node :=
  .elem "DIV" [("id", BANNER_SLOT_ID), ("style", "position: relative; z-index: 99999")] []

/-- ensureSlot of the loader. -/
def ensureSlot (doc : List Node) : List Node × SlotRef :=
  match findPathById BANNER_SLOT_ID doc with
  | some _ => (doc, .byId)
  | none =>
    match findPathById BANNER_ID doc with
    | some p => if p.length ≤ 1 then (doc, .body) else (doc, .parentPath p.dropLast)
    | none => (doc ++ [freshSlot], .byId)

/-- element.setAttribute: update the attribute in place when present,
otherwise append it. -/
def setAttribute (a : List (String × String)) (n v : String) : List (String × String) :=
  if (a.find? (fun p => p.1 == n)).isSome then
    a.map (fun p => if p.1 == n then (n, v) else p)
  else a ++ [(n, v)]

/-- DOM effect of attachHandlers: when a banner exists and is not yet marked,
set its data-handlers-attached attribute to "1".  The rest of attachHandlers
installs listeners and sets plain JS expando properties, neither of which is
a DOM-tree observable. -/
def attachHandlers (doc : List Node) : List Node :=
  match findByIdF BANNER_ID doc with
  | none => doc
  | some b =>
    if attrLookup (nodeAttrs b) "data-handlers-attached" == some "1" then doc
    else
      mapFirstById BANNER_ID
        (fun n =>
          match n with
          | .elem tg a ch => .elem tg (setAttribute a "data-handlers-attached" "1") ch
          | t => t)
        doc

/-- The while-remove/appendChild pair of renderBanner: the designated slot's
children are replaced by the fragment content. -/
def setSlotChildren : SlotRef → List Node → List Node → List Node
  | .byId, cs, doc =>
    mapFirstById BANNER_SLOT_ID
      (fun n =>
        match n with
        | .elem tg a _ => .elem tg a cs
        | t => t)
      doc
  | .body, cs, _ => cs
  | .parentPath p, cs, doc => setChildrenAtPath p cs doc

/-- renderBanner of the loader.  Template parsing (tpl.innerHTML = html) is a
host primitive and enters as the parseHtml oracle. -/
def renderBanner (html : String) (parseHtml : String → List Node) (doc : List Node) :
    List Node :=
  if html == "" then doc
  else
    let es := ensureSlot doc
    let frag := sanitizeFragment (parseHtml (jsTrim html))
    let oldBanner := findByIdF BANNER_ID es.1
    match oldBanner, firstElemChild frag with
    | some ob, some nb =>
      if isEqualNode ob nb then es.1
      else attachHandlers (setSlotChildren es.2 frag (removeFirstById BANNER_ID es.1))
    | _, _ => attachHandlers (setSlotChildren es.2 frag es.1)

/-- Outcome of one res = await csrfFetch(...) plus res.text(): ok is the
response success flag, text is none when reading the body threw. -/
structure FetchResult where
  ok : Bool
  text : Option String

/-- Result of one loadBanner run: the final document and whether a banner
fetch request was issued to the banner endpoint. -/
structure LoadOutcome where
  doc : List Node
  fetchIssued : Bool

/-- loadBanner of the loader.  fetchResult is the network oracle: none means
the fetch rejected (the catch block leaves the document alone). -/
def loadBanner (cookie : Option String) (jparse : String → Option JsonVal)
    (fetchResult : Option FetchResult) (parseHtml : String → List Node)
    (doc : List Node) : LoadOutcome :=
  if hasConsentCookie cookie jparse then ⟨removeBanner doc, false⟩
  else
    match fetchResult with
    | none => ⟨doc, true⟩
    | some r =>
      if !r.ok then ⟨doc, true⟩
      else
        match r.text with
        | none => ⟨doc, true⟩
        | some h =>
          if h == "" || jsTrim h == "" then ⟨removeBanner doc, true⟩
          else ⟨renderBanner h parseHtml doc, true⟩

/-- Concrete banner element used by witnesses. -/
def demoBannerNode : Node := .elem "DIV" [("id", "consent-banner")] []

/-- Concrete slot element (holding the banner) used by witnesses. -/
def demoSlotNode : Node := .elem "DIV" [("id", "consent-banner-slot")] [demoBannerNode]

/-- Concrete document used by witnesses. -/
def demoDoc : List Node := [demoSlotNode]

/-- Concrete innerHTML-parsing oracle used by witnesses. -/
def demoParseHtml : String → List Node := fun _ => []

/-- Concrete innerHTML oracle that always yields the demo banner markup. -/
def demoParseBanner : String → List Node := fun _ => [demoBannerNode]

/-- Observable actions of the accept-all / reject-all response flows:
the banner teardown, a structured-message toast (showToastMessage), or a
fragment-extracted toast (injectToastFromHtml). -/
inductive CAct where
  | removeBannerAct
  | toastMsg (m : String)
  | toastFragment (h : String)

def isToastMsgAct : CAct → Bool
  | .toastMsg _ => true
  | _ => false

def isToastFragmentAct : CAct → Bool
  | .toastFragment _ => true
  | _ => false

/-- Property access js.k on a parsed JSON value: a field of an object,
undefined (none) otherwise. -/
def getField (j : JsonVal) (k : String) : Option JsonVal :=
  match j with
  | .obj keys vals => ((keys.zip vals).find? (fun p => p.1 == k)).map (fun p => p.2)
  | _ => none

/-- Truthiness of js.k, undefined counting as falsy. -/
def truthyField (j : JsonVal) (k : String) : Bool :=
  match getField j k with
  | some v => truthyJson v
  | none => false

/-- JavaScript String(v) coercion of a parsed JSON value (the array and
object cases are crude approximations; only the string case is relied on). -/
def jsToString : JsonVal → String
  | .null => "null"
  | .bool true => "true"
  | .bool false => "false"
  | .num n => toString n
  | .str s => s
  | .arr _ => ""
  | .obj _ _ => "[object Object]"

/-- Shared tail of doAcceptAll and doRejectAll after removeBanner(): parse
text || "\x7b\x7d" as JSON; on a truthy value with a truthy message show the
structured-message toast, otherwise (including parse failure) extract a toast
from the body as an HTML fragment. -/
def effectiveBody (text : String) : String :=
  if text == "" then "\x7b\x7d" else text

def consentPostActions (text : String) (jparse : String → Option JsonVal) : List CAct :=
  match jparse (effectiveBody text) with
  | none => [.toastFragment text]
  | some js =>
    if truthyJson js && truthyField js "message" then
      match getField js "message" with
      | some m => [.toastMsg (jsToString m)]
      | none => [.toastFragment text]
    else [.toastFragment text]

/-- doAcceptAll of the loader as its action trace.  resp none: the POST
rejected and the catch shows only the failure toast.  Otherwise text() is
read (its own catch leaves ""), the banner is torn down, then exactly one
toast path runs. -/
def doAcceptAll (resp : Option FetchResult) (jparse : String → Option JsonVal) : List CAct :=
  match resp with
  | none => [.toastMsg "Failed to accept cookies — please try again."]
  | some r => .removeBannerAct :: consentPostActions (r.text.getD "") jparse

/-- doRejectAll of the loader as its action trace (same shape as doAcceptAll
with the reject endpoint and failure message). -/
def doRejectAll (resp : Option FetchResult) (jparse : String → Option JsonVal) : List CAct :=
  match resp with
  | none => [.toastMsg "Failed to reject cookies — please try again."]
  | some r => .removeBannerAct :: consentPostActions (r.text.getD "") jparse

/-- onRemoveBanner of consent.js: remove #consent-banner, then remove the
slot when it has no child nodes left. -/
def onRemoveBanner (doc : List Node) : List Node :=
  let d1 := removeFirstById BANNER_ID doc
  match findByIdF BANNER_SLOT_ID d1 with
  | some slot => if (nodeChildren slot).isEmpty then removeFirstById BANNER_SLOT_ID d1 else d1
  | none => d1

/-- insertAdjacentHTML("afterbegin", ...): the parsed markup becomes a prefix
of the element's child list. -/
def prependChildren (cs : List Node) : Node → Node
  | .elem tg a ch => .elem tg a (cs ++ ch)
  | t => t

/-- element.appendChild(n). -/
def appendChild (n : Node) : Node → Node
  | .elem tg a ch => .elem tg a (ch ++ [n])
  | t => t

/-- onShowToast of consent.js: given the event detail, insert detail.html
wholesale (insertAdjacentHTML afterbegin) into #global-toasts, else
#app-toasts; no-op when the detail or its html is falsy or no container
exists. -/
def onShowToast (detail : Option JsonVal) (parseHtml : String → List Node)
    (doc : List Node) : List Node :=
  match detail with
  | none => doc
  | some d =>
    if truthyJson d then
      match getField d "html" with
      | some h =>
        if truthyJson h then
          if containsIdF "global-toasts" doc then
            mapFirstById "global-toasts" (prependChildren (parseHtml (jsToString h))) doc
          else if containsIdF "app-toasts" doc then
            mapFirstById "app-toasts" (prependChildren (parseHtml (jsToString h))) doc
          else doc
        else doc
      | none => doc
    else doc

/-- The htmx:afterOnLoad listener of consent.js: read the HX-Trigger header,
parse it with strict JSON.parse only (failure: silently ignore), then apply
the removeConsentBanner and showToast keys.  A null payload throws on member
access and the outer catch swallows it. -/
def afterOnLoad (hxTrigger : Option String) (jparse : String → Option JsonVal)
    (parseHtml : String → List Node) (doc : List Node) : List Node :=
  match hxTrigger with
  | none => doc
  | some s =>
    match jparse s with
    | none => doc
    | some triggers =>
      match triggers with
      | .null => doc
      | _ =>
        let doc1 :=
          if truthyField triggers "removeConsentBanner" then onRemoveBanner doc else doc
        match getField triggers "showToast" with
        | some st =>
          if truthyJson st && truthyField st "html" then onShowToast (some st) parseHtml doc1
          else doc1
        | none => doc1

/-- Whitespace-separated words of a character list (accumulator reversed on
word end). -/
def wordsAux : List Char → List Char → List (List Char)
  | [], acc => if acc.isEmpty then [] else [acc.reverse]
  | c :: rest, acc =>
    if isJsSpace c then
      if acc.isEmpty then wordsAux rest [] else acc.reverse :: wordsAux rest []
    else wordsAux rest (c :: acc)

/-- The CSS class selector test: the class attribute, split on whitespace,
contains the token. -/
def hasClassToken (a : List (String × String)) (c : String) : Bool :=
  match attrLookup a "class" with
  | some v => (wordsAux v.data []).contains c.data
  | none => false

/-- querySelector(".c"): first element in preorder with the class token. -/
def findFirstByClass (c : String) : List Node → Option Node
  | [] => none
  | .text _ :: ns => findFirstByClass c ns
  | .elem tg a ch :: ns =>
    if hasClassToken a c then some (.elem tg a ch)
    else
      match findFirstByClass c ch with
      | some n => some n
      | none => findFirstByClass c ns

/-- The div ensureToastsArea creates and appends to body when #app-toasts is
missing. -/
def freshToastsArea (content : List Node) : Node :=
  .elem "DIV" [("id", TOASTS_ID),
    ("style", "position: fixed; top: 16px; right: 16px; z-index: 100000")] content

/-- injectToastFromHtml of the loader: parse the markup into a detached div,
locate the first .toast (else .toast-body) element, sanitize its descendants
(the clone is the sanitize root, so its own attributes survive), and append
it to the (lazily created) toast area.  The show/auto-remove scheduling has
no immediate DOM effect. -/
def injectToastFromHtml (html : String) (parseHtml : String → List Node)
    (doc : List Node) : List Node :=
  if html == "" then doc
  else
    let tmp := parseHtml html
    match
      (match findFirstByClass "toast" tmp with
       | some n => some n
       | none => findFirstByClass "toast-body" tmp) with
    | none => doc
    | some toastNode =>
      let toast := sanitizeRoot toastNode
      if containsIdF TOASTS_ID doc then mapFirstById TOASTS_ID (appendChild toast) doc
      else doc ++ [freshToastsArea [toast]]

/-- input[type=checkbox] test of the checkbox queries (tagName INPUT, type
attribute checkbox). -/
def isCheckbox (tg : String) (a : List (String × String)) : Bool :=
  tg == "INPUT" && attrLookup a "type" == some "checkbox"

/-- querySelectorAll for checkboxes in preorder; withSlug additionally
requires the data-consent-slug attribute to be present (any value), matching
the attribute-presence selector. -/
def collectCheckboxes (withSlug : Bool) : List Node → List Node
  | [] => []
  | .text _ :: ns => collectCheckboxes withSlug ns
  | .elem tg a ch :: ns =>
    (if isCheckbox tg a && (!withSlug || (attrLookup a "data-consent-slug").isSome)
     then [Node.elem tg a ch] else []) ++
      collectCheckboxes withSlug ch ++ collectCheckboxes withSlug ns

/-- First attribute in the given key list whose value is truthy (non-empty);
models a chain of || over getAttribute/dataset/name reads. -/
def firstTruthyAttr (a : List (String × String)) : List String → Option String
  | [] => none
  | k :: ks =>
    match attrLookup a k with
    | some v => if v == "" then firstTruthyAttr a ks else some v
    | none => firstTruthyAttr a ks

/-- Slug resolution of saveGranularPreferences:
data-consent-slug || dataset.consentSlug (the same attribute again) ||
dataset.consent_slug || dataset.consent || name || null. -/
def resolveSlug (a : List (String × String)) : Option String :=
  firstTruthyAttr a ["data-consent-slug", "data-consent_slug", "data-consent", "name"]

/-- The checkbox's live checked property, modelled as presence of the checked
attribute. -/
def isChecked (n : Node) : Bool :=
  (attrLookup (nodeAttrs n) "checked").isSome

/-- payload[slug] = value with JS object-assignment semantics: overwrite in
place when the key exists, else append. -/
def objInsert (kvs : List (String × Bool)) (k : String) (v : Bool) : List (String × Bool) :=
  if (kvs.find? (fun p => p.1 == k)).isSome then
    kvs.map (fun p => if p.1 == k then (k, v) else p)
  else kvs ++ [(k, v)]

/-- The checkbox list saveGranularPreferences (and attachHandlers) operates
on: the slug-attributed checkboxes inside the banner when any exist,
otherwise every checkbox inside the banner. -/
def selectedCheckboxes (banner : Node) : List Node :=
  let chksA := collectCheckboxes true (nodeChildren banner)
  if chksA.length == 0 then collectCheckboxes false (nodeChildren banner) else chksA

/-- The payload loop of saveGranularPreferences: for each selected checkbox,
resolve a slug (skipping the control when none resolves) and record its
checked state. -/
def collectGranularPayload (banner : Node) : List (String × Bool) :=
  (selectedCheckboxes banner).foldl
    (fun acc c =>
      match resolveSlug (nodeAttrs c) with
      | none => acc
      | some slug => objInsert acc slug (isChecked c))
    []

/-- saveGranularPreferences as the request it issues: none when no banner is
in the document (early return, no request), otherwise the slug→checked
payload POSTed to the accept endpoint. -/
def saveGranularPreferences (doc : List Node) : Option (List (String × Bool)) :=
  match findByIdF BANNER_ID doc with
  | none => none
  | some banner => some (collectGranularPayload banner)

/-- The ≈250ms debounce delay of the change handler. -/
def CONSENT_SAVE_DELAY : Nat := 250

/-- State of the debounce simulation: the current document, the pending
window.__consent_save_timeout (as its absolute fire time), and the granular
save requests issued so far. -/
structure DebounceState where
  doc : List Node
  pending : Option Nat
  saves : List (List (String × Bool))

/-- A due timer fires: saveGranularPreferences runs against the current
document and its request (if any) is recorded. -/
def debFire (st : DebounceState) : DebounceState :=
  match st.pending with
  | none => st
  | some _ =>
    match saveGranularPreferences st.doc with
    | some payload => ⟨st.doc, none, st.saves ++ [payload]⟩
    | none => ⟨st.doc, none, st.saves⟩

/-- One checkbox-change event at time ev.1 leaving the banner DOM in state
ev.2: the event loop first runs a timer already due, then the change handler
clears the shared timer and restarts it at now + 250. -/
def debStep (st : DebounceState) (ev : Nat × List Node) : DebounceState :=
  let st1 :=
    match st.pending with
    | some p => if p ≤ ev.1 then debFire st else st
    | none => st
  ⟨ev.2, some (ev.1 + CONSENT_SAVE_DELAY), st1.saves⟩

/-- Run a sequence of timestamped checkbox changes from an idle state, then
let the final pending timer fire. -/
def debRun (doc0 : List Node) (events : List (Nat × List Node)) : DebounceState :=
  debFire (events.foldl debStep ⟨doc0, none, []⟩)

/-- Concrete strict-JSON oracle for the trigger header: accepts exactly the
well-formed removeConsentBanner payload, rejects everything else (including
the unquoted-key variant). -/
def demoTriggerParse : String → Option JsonVal :=
  fun s =>
    if s == "\x7b\"removeConsentBanner\": true\x7d" then
      some (.obj ["removeConsentBanner"] [.bool true])
    else none

/-- Concrete toast container document used by the toast theorems. -/
def demoToastContainer : Node := .elem "DIV" [("id", "app-toasts")] []

def demoToastDoc : List Node := [demoToastContainer]

/-- Markup with an inline handler and no toast-shaped element. -/
def demoXssHtml : String := "<div onclick=\"steal()\">hi</div>"

/-- The node the demo markup parses to. -/
def demoXssNode : Node := .elem "DIV" [("onclick", "steal()")] [.text "hi"]

/-- Concrete innerHTML oracle for the demo markup. -/
def demoXssParse : String → List Node := fun _ => [demoXssNode]

/-- Concrete checkbox carrying data-consent and name but no
data-consent-slug. -/
def demoFallbackBox : Node :=
  .elem "INPUT" [("type", "checkbox"), ("data-consent", "ads"), ("name", "analytics"),
    ("checked", "")] []

/-- Concrete banner holding only the fallback checkbox. -/
def demoFallbackBanner : Node := .elem "DIV" [("id", "consent-banner")] [demoFallbackBox]

/-- Concrete granular checkbox with a slug and a live checked state. -/
def demoChk (slug : String) (checked : Bool) : Node :=
  .elem "INPUT"
    ([("type", "checkbox"), ("data-consent-slug", slug)] ++
      if checked then [("checked", "")] else []) []

/-- Concrete banner with five granular checkboxes. -/
def demoGranBanner (c1 c2 c3 c4 c5 : Bool) : Node :=
  .elem "DIV" [("id", "consent-banner")]
    [demoChk "a" c1, demoChk "b" c2, demoChk "c" c3, demoChk "d" c4, demoChk "e" c5]

/-- Five checkbox toggles 20ms apart, each leaving one more box checked. -/
def demoBurstEvents : List (Nat × List Node) :=
  [(0, [demoGranBanner true false false false false]),
   (20, [demoGranBanner true true false false false]),
   (40, [demoGranBanner true true true false false]),
   (60, [demoGranBanner true true true true false]),
   (80, [demoGranBanner true true true true true])]

/-! DEFINITIONS-END -/

theorem sanitizeAttrs_keep (a : List (String × String)) :
    (sanitizeAttrs a).all (fun p => !(isEventHandlerAttr p.1)) = true ∧
      (sanitizeAttrs a).all (fun p => !(isUrlAttr p.1 && isDangerousUrl p.2)) = true := by
  constructor <;>
  · rw [List.all_eq_true]
    intro p hp
    have hk := List.of_mem_filter hp
    simp only [keepAttr, Bool.and_eq_true, Bool.not_eq_true'] at hk ⊢
    simp_all

theorem whitelistPass_tagsAllowed (f : List Node) : tagsAllowedF (whitelistPass f) = true := by
  induction f using whitelistPass.induct with
  | case1 => simp [whitelistPass, tagsAllowedF]
  | case2 s ns ih => simp [whitelistPass, tagsAllowedF, ih]
  | case3 tg a ch ns h ih1 ih2 => simp [whitelistPass, tagsAllowedF, h, ih1, ih2]
  | case4 tg a ch ns h ih => simp [whitelistPass, h, ih]

theorem whitelistPass_noHandlerAttrs (f : List Node) :
    noHandlerAttrsF (whitelistPass f) = true := by
  induction f using whitelistPass.induct with
  | case1 => simp [whitelistPass, noHandlerAttrsF]
  | case2 s ns ih => simp [whitelistPass, noHandlerAttrsF, ih]
  | case3 tg a ch ns h ih1 ih2 =>
    simp [whitelistPass, noHandlerAttrsF, h, ih1, ih2, (sanitizeAttrs_keep a).1]
  | case4 tg a ch ns h ih => simp [whitelistPass, h, ih]

theorem whitelistPass_noBadUrlAttrs (f : List Node) :
    noBadUrlAttrsF (whitelistPass f) = true := by
  induction f using whitelistPass.induct with
  | case1 => simp [whitelistPass, noBadUrlAttrsF]
  | case2 s ns ih => simp [whitelistPass, noBadUrlAttrsF, ih]
  | case3 tg a ch ns h ih1 ih2 =>
    simp only [whitelistPass, h, if_true, noBadUrlAttrsF, Bool.and_eq_true]
    exact ⟨⟨(sanitizeAttrs_keep a).2, ih1⟩, ih2⟩
  | case4 tg a ch ns h ih => simp [whitelistPass, h, ih]

theorem tagsAllowed_noScripts (f : List Node) :
    tagsAllowedF f = true → noScriptsF f = true := by
  induction f using noScriptsF.induct with
  | case1 => simp [noScriptsF]
  | case2 s ns ih => simpa [tagsAllowedF, noScriptsF] using ih
  | case3 tg a ch ns ih1 ih2 =>
    intro h
    simp only [tagsAllowedF, Bool.and_eq_true] at h
    have htag : ¬(tg == "SCRIPT") = true := by
      intro hs
      have := h.1.1
      rw [show tg = "SCRIPT" from by simpa using hs] at this
      simp [allowedTag] at this
    simp only [noScriptsF, Bool.and_eq_true]
    exact ⟨⟨by simpa using htag, ih1 h.1.2⟩, ih2 h.2⟩

/-- C2: after sanitizeFragment, the fragment contains no script element, every
remaining element tag is on the fixed allow-list, no remaining element carries
an on* event-handler attribute, and no remaining href/src attribute value
begins (after optional leading whitespace) with a javascript: or
data:text/html scheme. -/
theorem sanitizeFragment_safe (f : List Node) :
    noScriptsF (sanitizeFragment f) = true ∧
      tagsAllowedF (sanitizeFragment f) = true ∧
      noHandlerAttrsF (sanitizeFragment f) = true ∧
      noBadUrlAttrsF (sanitizeFragment f) = true :=
  ⟨tagsAllowed_noScripts _ (whitelistPass_tagsAllowed _),
    whitelistPass_tagsAllowed _, whitelistPass_noHandlerAttrs _,
    whitelistPass_noBadUrlAttrs _⟩

theorem removeScripts_of_noScripts (f : List Node) :
    noScriptsF f = true → removeScripts f = f := by
  induction f using removeScripts.induct with
  | case1 => simp [removeScripts]
  | case2 s ns ih => simpa [noScriptsF, removeScripts] using ih
  | case3 tg a ch ns h ih => simp [noScriptsF, h]
  | case4 tg a ch ns h ih1 ih2 =>
    intro hns
    simp only [noScriptsF, Bool.and_eq_true] at hns
    simp [removeScripts, h, ih1 hns.1.2, ih2 hns.2]

theorem sanitizeAttrs_idem (a : List (String × String)) :
    sanitizeAttrs (sanitizeAttrs a) = sanitizeAttrs a := by
  induction a with
  | nil => rfl
  | cons hd tl ih =>
    by_cases h : keepAttr hd = true <;>
      simp only [sanitizeAttrs, List.filter_cons, h, if_true, if_false] at ih ⊢ <;>
      simp [h, ih]

theorem whitelistPass_idem (f : List Node) :
    whitelistPass (whitelistPass f) = whitelistPass f := by
  induction f using whitelistPass.induct with
  | case1 => simp [whitelistPass]
  | case2 s ns ih => simp [whitelistPass, ih]
  | case3 tg a ch ns h ih1 ih2 => simp [whitelistPass, h, sanitizeAttrs_idem, ih1, ih2]
  | case4 tg a ch ns h ih => simp [whitelistPass, h, ih]

/-- C3: sanitizeFragment is idempotent — applying it a second time to an
already-sanitized fragment changes nothing. -/
theorem sanitizeFragment_idem (f : List Node) :
    sanitizeFragment (sanitizeFragment f) = sanitizeFragment f := by
  unfold sanitizeFragment
  rw [removeScripts_of_noScripts _
    (tagsAllowed_noScripts _ (whitelistPass_tagsAllowed (removeScripts f)))]
  exact whitelistPass_idem _

/-!
JSON values as produced by a successful strict JSON.parse.  The parser itself
is a host primitive, so it enters the model as an oracle argument
(jparse : String → Option JsonVal, none meaning the parse threw); every
consumer in the source wraps the parse in try/catch, which the Option models.
-/

/-- C4: hasConsentCookie returns true for the truthy top-level sentinels "1"
and "true" and whenever the value parses to a mapping containing a truthy
member, and returns false — as a total function, never an error — on absence
or on any parse failure. -/
theorem hasConsentCookie_spec (s : String) (jparse : String → Option JsonVal) :
    hasConsentCookie none jparse = false ∧
      hasConsentCookie (some "") jparse = false ∧
      hasConsentCookie (some "1") jparse = true ∧
      hasConsentCookie (some "true") jparse = true ∧
      (∀ keys vals, jparse s = some (.obj keys vals) →
        vals.any truthyJson = true → s ≠ "" →
        hasConsentCookie (some s) jparse = true) ∧
      (s ≠ "1" → s ≠ "true" → jparse s = none → hasConsentCookie (some s) jparse = false) := by
  refine ⟨rfl, rfl, rfl, rfl, ?_, ?_⟩
  · intro keys vals hp ht hne
    by_cases h1 : s = "1"
    · simp [hasConsentCookie, h1]
    by_cases h2 : s = "true"
    · simp [hasConsentCookie, h2]
    have hbe : (s == "") = false := by simp [hne]
    have hb1 : (s == "1") = false := by simp [h1]
    have hb2 : (s == "true") = false := by simp [h2]
    simp only [hasConsentCookie, hbe, hb1, hb2, Bool.or_self, Bool.false_or,
      Bool.false_eq_true, if_false, hp]
    simpa [truthyJson, jsTypeofObject, forInAnyTruthy] using ht
  · intro h1 h2 hp
    by_cases hne : s = ""
    · simp [hasConsentCookie, hne]
    simp [hasConsentCookie, hne, h1, h2, hp]

/-- Witness for C4 at concrete inputs: a cookie holding an analytics mapping
counts as a recorded decision, and an unparsable value does not. -/
theorem hasConsentCookie_spec_witness :
    hasConsentCookie (some "\x7b\"analytics\":true\x7d") demoJsonParse = true ∧
      hasConsentCookie (some "garbage") demoJsonParse = false :=
  ⟨(hasConsentCookie_spec _ demoJsonParse).2.2.2.2.1 ["analytics"] [JsonVal.bool true]
      rfl rfl (by decide),
    (hasConsentCookie_spec _ demoJsonParse).2.2.2.2.2 (by decide) (by decide) rfl⟩

theorem containsIdF_iff_countId (i : String) (ns : List Node) :
    containsIdF i ns = true ↔ 0 < countId i ns := by
  induction ns using containsIdF.induct i with
  | case1 => simp [containsIdF, countId]
  | case2 s ns ih => simpa [containsIdF, countId] using ih
  | case3 tg a ch ns ih1 ih2 =>
    by_cases h : attrLookup a "id" = some i <;>
      simp [containsIdF, countId, h, ih1, ih2]

theorem findByIdF_none_iff_countId (i : String) (ns : List Node) :
    findByIdF i ns = none ↔ countId i ns = 0 := by
  induction ns using findByIdF.induct i with
  | case1 => simp [findByIdF, countId]
  | case2 s ns ih => simpa [findByIdF, countId] using ih
  | case3 tg a ch ns h =>
    have h' : attrLookup a "id" = some i := by simpa using h
    simp [findByIdF, countId, h, h']
  | case4 tg a ch ns h n hm ih =>
    have h' : ¬ attrLookup a "id" = some i := by simpa using h
    have hch : ¬ countId i ch = 0 := by
      intro h0
      rw [← ih] at h0
      simp [hm] at h0
    simp [findByIdF, h, h', hm, countId, hch]
  | case5 tg a ch ns h hm ih ihns =>
    have h' : ¬ attrLookup a "id" = some i := by simpa using h
    have hch : countId i ch = 0 := ih.mp hm
    simp [findByIdF, h, h', hm, countId, hch, ihns]

theorem removeFirstById_of_not_contains (i : String) (ns : List Node)
    (h : containsIdF i ns = false) : removeFirstById i ns = ns := by
  induction ns using removeFirstById.induct i with
  | case1 => simp [removeFirstById]
  | case2 s ns ih =>
    simp only [containsIdF] at h
    simp [removeFirstById, ih h]
  | case3 tg a ch ns hid =>
    simp only [containsIdF, Bool.or_eq_false_iff] at h
    exact absurd hid (by simp [h.1.1])
  | case4 tg a ch ns hid hch ih =>
    simp only [containsIdF, Bool.or_eq_false_iff] at h
    exact absurd hch (by simp [h.1.2])
  | case5 tg a ch ns hid hch ih =>
    simp only [containsIdF, Bool.or_eq_false_iff] at h
    simp [removeFirstById, hid, hch, ih h.2]

theorem countId_removeFirstById_self (i : String) (ns : List Node)
    (h : containsIdF i ns = true) :
    countId i (removeFirstById i ns) + 1 ≤ countId i ns := by
  induction ns using removeFirstById.induct i with
  | case1 => simp [containsIdF] at h
  | case2 s ns ih =>
    simp only [containsIdF] at h
    simpa [removeFirstById, countId] using ih h
  | case3 tg a ch ns hid =>
    have h' : attrLookup a "id" = some i := by simpa using hid
    simp only [removeFirstById, hid, if_true, countId]
    simp only [h', if_true]
    omega
  | case4 tg a ch ns hid hch ih =>
    have hne : ¬ attrLookup a "id" = some i := by simpa using hid
    have := ih hch
    simp [removeFirstById, countId, hid, hch, hne]
    omega
  | case5 tg a ch ns hid hch ih =>
    have hne : ¬ attrLookup a "id" = some i := by simpa using hid
    simp only [containsIdF, Bool.or_eq_true] at h
    rcases h with (h | h) | h
    · exact absurd h (by simpa using hid)
    · exact absurd h (by simp [hch])
    · have := ih h
      simp [removeFirstById, countId, hid, hch, hne]
      omega

theorem countId_removeFirstById_le (i j : String) (ns : List Node) :
    countId j (removeFirstById i ns) ≤ countId j ns := by
  induction ns using removeFirstById.induct i with
  | case1 => simp [removeFirstById]
  | case2 s ns ih => simpa [removeFirstById, countId] using ih
  | case3 tg a ch ns hid =>
    simp only [removeFirstById, hid, if_true, countId]
    omega
  | case4 tg a ch ns hid hch ih =>
    simp only [removeFirstById, hid, Bool.false_eq_true, if_false, hch, if_true, countId]
    omega
  | case5 tg a ch ns hid hch ih =>
    simp only [removeFirstById, hid, hch, Bool.false_eq_true, if_false, countId]
    omega

theorem findByIdF_some_countId_pos (i : String) (ns : List Node) (n : Node)
    (h : findByIdF i ns = some n) : 0 < countId i ns := by
  rcases Nat.eq_zero_or_pos (countId i ns) with h0 | h0
  · rw [← findByIdF_none_iff_countId] at h0
    simp [h0] at h
  · exact h0

theorem removeBanner_banner_gone (doc : List Node)
    (hb : countId BANNER_ID doc ≤ 1) :
    findByIdF BANNER_ID (removeBanner doc) = none := by
  have hd1 : countId BANNER_ID (removeFirstById BANNER_ID doc) = 0 := by
    by_cases hc : containsIdF BANNER_ID doc = true
    · have := countId_removeFirstById_self BANNER_ID doc hc
      omega
    · have h0 : countId BANNER_ID doc = 0 := by
        rcases Nat.eq_zero_or_pos (countId BANNER_ID doc) with h | h
        · exact h
        · exact absurd ((containsIdF_iff_countId BANNER_ID doc).mpr h) hc
      rw [removeFirstById_of_not_contains _ _ (by simpa using hc)]
      exact h0
  unfold removeBanner
  cases hfind : findByIdF BANNER_SLOT_ID (removeFirstById BANNER_ID doc) with
  | none => simpa [hfind, findByIdF_none_iff_countId] using hd1
  | some slot =>
    by_cases he : (nodeChildren slot).isEmpty
    · have h2 : countId BANNER_ID
          (removeFirstById BANNER_SLOT_ID (removeFirstById BANNER_ID doc)) = 0 :=
        Nat.le_zero.mp (hd1 ▸ countId_removeFirstById_le BANNER_SLOT_ID BANNER_ID _)
      simp [hfind, he, findByIdF_none_iff_countId, h2]
    · simpa [hfind, he, findByIdF_none_iff_countId] using hd1

theorem removeBanner_no_empty_slot (doc : List Node)
    (hs : countId BANNER_SLOT_ID doc ≤ 1) :
    ∀ slot, findByIdF BANNER_SLOT_ID (removeBanner doc) = some slot →
      (nodeChildren slot).isEmpty = false := by
  have hsd1 : countId BANNER_SLOT_ID (removeFirstById BANNER_ID doc) ≤ 1 :=
    le_trans (countId_removeFirstById_le BANNER_ID BANNER_SLOT_ID doc) hs
  unfold removeBanner
  cases hfind : findByIdF BANNER_SLOT_ID (removeFirstById BANNER_ID doc) with
  | none => simp [hfind]
  | some s =>
    by_cases he : (nodeChildren s).isEmpty
    · have hpos := findByIdF_some_countId_pos _ _ _ hfind
      have hcontains : containsIdF BANNER_SLOT_ID (removeFirstById BANNER_ID doc) = true :=
        (containsIdF_iff_countId _ _).mpr hpos
      have h0 : countId BANNER_SLOT_ID
          (removeFirstById BANNER_SLOT_ID (removeFirstById BANNER_ID doc)) = 0 := by
        have := countId_removeFirstById_self BANNER_SLOT_ID _ hcontains
        omega
      rw [← findByIdF_none_iff_countId] at h0
      simp [hfind, he, h0]
    · simp only [hfind, he, Bool.false_eq_true, if_false]
      intro slot hsl
      cases hsl
      simpa using he

/-- C1: when a recorded consent decision exists, loadBanner issues no request
to the banner endpoint, removes any existing banner node from the document,
and leaves no empty slot behind. -/
theorem loadBanner_decision_suppresses_fetch (cookie : Option String)
    (jparse : String → Option JsonVal) (fetchResult : Option FetchResult)
    (parseHtml : String → List Node) (doc : List Node)
    (hc : hasConsentCookie cookie jparse = true)
    (hb : countId BANNER_ID doc ≤ 1)
    (hs : countId BANNER_SLOT_ID doc ≤ 1) :
    (loadBanner cookie jparse fetchResult parseHtml doc).fetchIssued = false ∧
      (loadBanner cookie jparse fetchResult parseHtml doc).doc = removeBanner doc ∧
      findByIdF BANNER_ID (loadBanner cookie jparse fetchResult parseHtml doc).doc = none ∧
      (∀ slot,
        findByIdF BANNER_SLOT_ID (loadBanner cookie jparse fetchResult parseHtml doc).doc =
          some slot → (nodeChildren slot).isEmpty = false) := by
  have hrun : loadBanner cookie jparse fetchResult parseHtml doc =
      ⟨removeBanner doc, false⟩ := by
    simp [loadBanner, hc]
  rw [hrun]
  exact ⟨rfl, rfl, removeBanner_banner_gone doc hb, removeBanner_no_empty_slot doc hs⟩

/-- Witness for C1: with the cookie holding "1", a mounted banner inside the
slot, and any fetch oracle, no fetch is issued and the banner is gone. -/
theorem loadBanner_decision_suppresses_fetch_witness :
    (loadBanner (some "1") demoJsonParse none demoParseHtml demoDoc).fetchIssued = false ∧
      findByIdF BANNER_ID
        (loadBanner (some "1") demoJsonParse none demoParseHtml demoDoc).doc = none := by
  have h := loadBanner_decision_suppresses_fetch (some "1") demoJsonParse none
    demoParseHtml demoDoc rfl
    (by simp [demoDoc, demoSlotNode, demoBannerNode, countId, attrLookup, BANNER_ID])
    (by simp [demoDoc, demoSlotNode, demoBannerNode, countId, attrLookup, BANNER_SLOT_ID])
  exact ⟨h.1, h.2.2.1⟩

theorem countId_append (i : String) (xs ys : List Node) :
    countId i (xs ++ ys) = countId i xs + countId i ys := by
  induction xs using countId.induct i with
  | case1 => simp [countId]
  | case2 s ns ih => simp [countId, ih]
  | case3 tg a ch ns ih1 ih2 => simp [countId, ih2]; omega

theorem containsIdF_false_of_zero (i : String) (xs : List Node)
    (h : countId i xs = 0) : containsIdF i xs = false := by
  rcases hb : containsIdF i xs with _ | _
  · rfl
  · have := (containsIdF_iff_countId i xs).mp hb
    omega

theorem findByIdF_append_zero (i : String) (xs ys : List Node)
    (h : countId i xs = 0) : findByIdF i (xs ++ ys) = findByIdF i ys := by
  induction xs using findByIdF.induct i with
  | case1 => simp
  | case2 s ns ih =>
    simp only [countId] at h
    simpa [findByIdF] using ih h
  | case3 tg a ch ns hid =>
    have : attrLookup a "id" = some i := by simpa using hid
    simp [countId, this] at h
  | case4 tg a ch ns hid n hm ih =>
    simp only [countId] at h
    have hch : countId i ch = 0 := by omega
    rw [← findByIdF_none_iff_countId] at hch
    simp [hm] at hch
  | case5 tg a ch ns hid hm ihch ihns =>
    simp only [countId] at h
    have hns : countId i ns = 0 := by omega
    simp [findByIdF, hid, hm, List.cons_append, ihns hns]

theorem removeFirstById_append_zero (i : String) (xs ys : List Node)
    (h : countId i xs = 0) :
    removeFirstById i (xs ++ ys) = xs ++ removeFirstById i ys := by
  induction xs using removeFirstById.induct i with
  | case1 => simp
  | case2 s ns ih =>
    simp only [countId] at h
    simpa [removeFirstById] using ih h
  | case3 tg a ch ns hid =>
    have : attrLookup a "id" = some i := by simpa using hid
    simp [countId, this] at h
  | case4 tg a ch ns hid hch ih =>
    simp only [countId] at h
    have := (containsIdF_iff_countId i ch).mp hch
    omega
  | case5 tg a ch ns hid hch ih =>
    simp only [countId] at h
    have hns : countId i ns = 0 := by omega
    simp [removeFirstById, hid, hch, List.cons_append, ih hns]

theorem mapFirstById_append_zero (i : String) (f : Node → Node) (xs ys : List Node)
    (h : countId i xs = 0) :
    mapFirstById i f (xs ++ ys) = xs ++ mapFirstById i f ys := by
  induction xs using mapFirstById.induct i f with
  | case1 => simp
  | case2 s ns ih =>
    simp only [countId] at h
    simpa [mapFirstById] using ih h
  | case3 tg a ch ns hid =>
    have : attrLookup a "id" = some i := by simpa using hid
    simp [countId, this] at h
  | case4 tg a ch ns hid hch ih =>
    simp only [countId] at h
    have := (containsIdF_iff_countId i ch).mp hch
    omega
  | case5 tg a ch ns hid hch ih =>
    simp only [countId] at h
    have hns : countId i ns = 0 := by omega
    simp [mapFirstById, hid, hch, List.cons_append, ih hns]

theorem findPathByIdAux_isSome (i : String) (idx : Nat) (ns : List Node)
    (h : containsIdF i ns = true) : (findPathByIdAux i idx ns).isSome = true := by
  induction idx, ns using findPathByIdAux.induct i with
  | case1 idx => simp [containsIdF] at h
  | case2 idx s ns ih =>
    simp only [containsIdF] at h
    simpa [findPathByIdAux] using ih h
  | case3 idx tg a ch ns hid => simp [findPathByIdAux, hid]
  | case4 idx tg a ch ns hid p hp =>
    simp [findPathByIdAux, hid, hp]
  | case5 idx tg a ch ns hid hp ihch ihns =>
    simp only [containsIdF, Bool.or_eq_true] at h
    rcases h with (h | h) | h
    · exact absurd h (by simpa using hid)
    · have := ihch h
      simp [hp] at this
    · simpa [findPathByIdAux, hid, hp] using ihns h

/-- C6: with a banner mounted inside the slot, renderBanner leaves the
document completely untouched when the sanitized fragment's top-level node is
isEqualNode-identical to the mounted banner; when they differ, the old banner
is removed, the slot is cleared, and the sanitized fragment becomes the
slot's content (followed by the handler-marking of attachHandlers). -/
theorem renderBanner_identical_noop (html : String) (parseHtml : String → List Node)
    (pre post spre spost bch : List Node) (stag btag : String)
    (sattrs battrs : List (String × String)) (nb : Node)
    (hhtml : (html == "") = false)
    (hbid : attrLookup battrs "id" = some BANNER_ID)
    (hsid : attrLookup sattrs "id" = some BANNER_SLOT_ID)
    (hpreB : countId BANNER_ID pre = 0)
    (hpreS : countId BANNER_SLOT_ID pre = 0)
    (hspreB : countId BANNER_ID spre = 0)
    (hnb : firstElemChild (sanitizeFragment (parseHtml (jsTrim html))) = some nb) :
    (isEqualNode (.elem btag battrs bch) nb = true →
      renderBanner html parseHtml
          (pre ++ .elem stag sattrs (spre ++ .elem btag battrs bch :: spost) :: post) =
        pre ++ .elem stag sattrs (spre ++ .elem btag battrs bch :: spost) :: post) ∧
    (isEqualNode (.elem btag battrs bch) nb = false →
      renderBanner html parseHtml
          (pre ++ .elem stag sattrs (spre ++ .elem btag battrs bch :: spost) :: post) =
        attachHandlers
          (pre ++ .elem stag sattrs (sanitizeFragment (parseHtml (jsTrim html))) :: post)) := by
  have hneqS : (attrLookup sattrs "id" == some BANNER_ID) = false := by
    rw [hsid]; decide
  have hbeqB : (attrLookup battrs "id" == some BANNER_ID) = true := by
    rw [hbid]; decide
  have hbeqS : (attrLookup sattrs "id" == some BANNER_SLOT_ID) = true := by
    rw [hsid]; decide
  have hdocS : 0 < countId BANNER_SLOT_ID
      (pre ++ .elem stag sattrs (spre ++ .elem btag battrs bch :: spost) :: post) := by
    rw [countId_append]
    simp [countId, hsid]
  have hcontS := (containsIdF_iff_countId BANNER_SLOT_ID _).mpr hdocS
  obtain ⟨p, hp⟩ := Option.isSome_iff_exists.mp
    (findPathByIdAux_isSome BANNER_SLOT_ID 0 _ hcontS)
  have hens : ensureSlot
      (pre ++ .elem stag sattrs (spre ++ .elem btag battrs bch :: spost) :: post) =
      (pre ++ .elem stag sattrs (spre ++ .elem btag battrs bch :: spost) :: post,
        SlotRef.byId) := by
    unfold ensureSlot findPathById
    rw [hp]
  have hchFind : findByIdF BANNER_ID (spre ++ .elem btag battrs bch :: spost) =
      some (.elem btag battrs bch) := by
    rw [findByIdF_append_zero _ _ _ hspreB]
    simp [findByIdF, hbeqB]
  have hold : findByIdF BANNER_ID
      (pre ++ .elem stag sattrs (spre ++ .elem btag battrs bch :: spost) :: post) =
      some (.elem btag battrs bch) := by
    rw [findByIdF_append_zero _ _ _ hpreB]
    simp [findByIdF, hneqS, hchFind]
  have hcontB : containsIdF BANNER_ID (spre ++ .elem btag battrs bch :: spost) = true := by
    apply (containsIdF_iff_countId _ _).mpr
    rw [countId_append]
    simp [countId, hbid]
  have hremCh : removeFirstById BANNER_ID (spre ++ .elem btag battrs bch :: spost) =
      spre ++ spost := by
    rw [removeFirstById_append_zero _ _ _ hspreB]
    simp [removeFirstById, hbeqB]
  have hrem : removeFirstById BANNER_ID
      (pre ++ .elem stag sattrs (spre ++ .elem btag battrs bch :: spost) :: post) =
      pre ++ .elem stag sattrs (spre ++ spost) :: post := by
    rw [removeFirstById_append_zero _ _ _ hpreB]
    simp [removeFirstById, hneqS, hcontB, hremCh]
  have hset : setSlotChildren SlotRef.byId (sanitizeFragment (parseHtml (jsTrim html)))
      (pre ++ .elem stag sattrs (spre ++ spost) :: post) =
      pre ++ .elem stag sattrs (sanitizeFragment (parseHtml (jsTrim html))) :: post := by
    simp only [setSlotChildren]
    rw [mapFirstById_append_zero _ _ _ _ hpreS]
    simp [mapFirstById, hbeqS]
  constructor
  · intro heq
    simp only [renderBanner, hhtml, Bool.false_eq_true, if_false, hens, hold, hnb, heq,
      if_true]
  · intro hne
    simp only [renderBanner, hhtml, Bool.false_eq_true, if_false, hens, hold, hnb, hne,
      if_false, hrem, hset]

/-- Witness for C6: re-rendering markup whose sanitized banner node equals the
mounted one leaves the document untouched. -/
theorem renderBanner_identical_noop_witness :
    renderBanner "x" demoParseBanner demoDoc = demoDoc := by
  have h := (renderBanner_identical_noop "x" demoParseBanner [] [] [] [] [] "DIV" "DIV"
      [("id", "consent-banner-slot")] [("id", "consent-banner")] demoBannerNode
      (by decide) (by decide) (by decide)
      (by simp [countId]) (by simp [countId]) (by simp [countId])
      (by simp +decide [sanitizeFragment, removeScripts, whitelistPass, sanitizeAttrs,
        demoParseBanner, demoBannerNode, firstElemChild])).1
    (by simp +decide [isEqualNode, nodesEqualB, attrsSetEq, demoBannerNode])
  simpa [demoDoc, demoSlotNode, demoBannerNode] using h

theorem consentPostActions_shape (text : String) (jparse : String → Option JsonVal) :
    ∃ t, consentPostActions text jparse = [t] ∧
      (isToastMsgAct t || isToastFragmentAct t) = true ∧
      (isToastMsgAct t = true ↔ ∃ js m,
        jparse (effectiveBody text) = some js ∧
        truthyJson js = true ∧ getField js "message" = some m ∧ truthyJson m = true) := by
  rcases hj : jparse (effectiveBody text) with _ | js
  · refine ⟨.toastFragment text, ?_, by simp [isToastMsgAct, isToastFragmentAct], ?_⟩
    · simp [consentPostActions, hj]
    · constructor
      · intro h
        simp [isToastMsgAct] at h
      · rintro ⟨js, m, hjs, -⟩
        cases hjs
  · by_cases hc : (truthyJson js && truthyField js "message") = true
    · have hm : ∃ m, getField js "message" = some m ∧ truthyJson m = true := by
        have h2 := ((Bool.and_eq_true _ _).mp hc).2
        unfold truthyField at h2
        cases hg : getField js "message" with
        | none => rw [hg] at h2; cases h2
        | some m => exact ⟨m, rfl, by rwa [hg] at h2⟩
      obtain ⟨m, hg, hmt⟩ := hm
      refine ⟨.toastMsg (jsToString m), ?_, by simp [isToastMsgAct, isToastFragmentAct], ?_⟩
      · simp [consentPostActions, hj, hc, hg]
      · constructor
        · intro _
          exact ⟨js, m, rfl, ((Bool.and_eq_true _ _).mp hc).1, hg, hmt⟩
        · intro _
          rfl
    · refine ⟨.toastFragment text, ?_, by simp [isToastMsgAct, isToastFragmentAct], ?_⟩
      · simp [consentPostActions, hj, hc]
      · constructor
        · intro h
          simp [isToastMsgAct] at h
        · rintro ⟨js2, m, hjs, ht, hg, hmt⟩
          cases hjs
          exact absurd (by simp [Bool.and_eq_true, ht, truthyField, hg, hmt]) hc

/-- C5: whenever an accept-all or reject-all POST resolves with a response,
the trace is exactly the banner teardown followed by exactly one toast
action — a structured-message toast precisely when the body parses as a
truthy JSON value carrying a truthy message, a fragment-extracted toast in
every other case (parse failure included). -/
theorem doAcceptRejectAll_teardown_single_toast (r : FetchResult)
    (jparse : String → Option JsonVal) :
    ∃ t, doAcceptAll (some r) jparse = [CAct.removeBannerAct, t] ∧
      doRejectAll (some r) jparse = [CAct.removeBannerAct, t] ∧
      (isToastMsgAct t || isToastFragmentAct t) = true ∧
      (isToastMsgAct t = true ↔ ∃ js m,
        jparse (effectiveBody (r.text.getD "")) = some js ∧
        truthyJson js = true ∧ getField js "message" = some m ∧ truthyJson m = true) := by
  obtain ⟨t, h1, h2, h3⟩ := consentPostActions_shape (r.text.getD "") jparse
  exact ⟨t, by simp [doAcceptAll, h1], by simp [doRejectAll, h1], h2, h3⟩

theorem onRemoveBanner_eq_removeBanner (doc : List Node) :
    onRemoveBanner doc = removeBanner doc := rfl

/-- C7: the trigger bridge parses the header by strict JSON.parse alone — a
header value the parser rejects leaves the document (banner included)
completely unchanged with no toast inserted, while the well-formed
removeConsentBanner payload runs the banner teardown; an absent header is
likewise a no-op. -/
theorem afterOnLoad_strict_trigger (s : String) (jparse : String → Option JsonVal)
    (parseHtml : String → List Node) (doc : List Node)
    (hb : countId BANNER_ID doc ≤ 1) :
    (jparse s = none → afterOnLoad (some s) jparse parseHtml doc = doc) ∧
      (jparse s = some (.obj ["removeConsentBanner"] [.bool true]) →
        afterOnLoad (some s) jparse parseHtml doc = onRemoveBanner doc ∧
        findByIdF BANNER_ID (afterOnLoad (some s) jparse parseHtml doc) = none) ∧
      afterOnLoad none jparse parseHtml doc = doc := by
  refine ⟨?_, ?_, rfl⟩
  · intro h
    simp [afterOnLoad, h]
  · intro h
    have hres : afterOnLoad (some s) jparse parseHtml doc = onRemoveBanner doc := by
      simp [afterOnLoad, h, truthyField, getField, truthyJson]
    refine ⟨hres, ?_⟩
    rw [hres, onRemoveBanner_eq_removeBanner]
    exact removeBanner_banner_gone doc hb

/-- Witness for C7: the unquoted-key header value is ignored outright while
the strict-JSON value removes the banner. -/
theorem afterOnLoad_strict_trigger_witness :
    afterOnLoad (some "\x7bremoveConsentBanner:true\x7d") demoTriggerParse
        demoParseHtml demoDoc = demoDoc ∧
      findByIdF BANNER_ID
        (afterOnLoad (some "\x7b\"removeConsentBanner\": true\x7d") demoTriggerParse
          demoParseHtml demoDoc) = none := by
  have hb : countId BANNER_ID demoDoc ≤ 1 := by
    simp [demoDoc, demoSlotNode, demoBannerNode, countId, attrLookup, BANNER_ID]
  exact ⟨(afterOnLoad_strict_trigger "\x7bremoveConsentBanner:true\x7d" demoTriggerParse
      demoParseHtml demoDoc hb).1 (by simp [demoTriggerParse]),
    ((afterOnLoad_strict_trigger "\x7b\"removeConsentBanner\": true\x7d" demoTriggerParse
      demoParseHtml demoDoc hb).2.1 (by simp [demoTriggerParse])).2⟩

theorem injectToastFromHtml_noToastNode (h : String) (p : String → List Node)
    (d : List Node) (hne : (h == "") = false)
    (h1 : findFirstByClass "toast" (p h) = none)
    (h2 : findFirstByClass "toast-body" (p h) = none) :
    injectToastFromHtml h p d = d := by
  simp [injectToastFromHtml, hne, h1, h2]

/-- Counterexample to C9: for a server-pushed show-toast payload whose markup
holds no toast-shaped element but an inline handler, the handler of
consent.js inserts the whole payload (handler attribute included) into the
toast container, whereas the fragment-toast path injectToastFromHtml would
have inserted nothing. -/
theorem onShowToast_not_fragment_path :
    onShowToast (some (.obj ["html"] [.str demoXssHtml])) demoXssParse demoToastDoc =
        [Node.elem "DIV" [("id", "app-toasts")] [demoXssNode]] ∧
      injectToastFromHtml demoXssHtml demoXssParse demoToastDoc = demoToastDoc ∧
      noHandlerAttrsF [Node.elem "DIV" [("id", "app-toasts")] [demoXssNode]] = false := by
  refine ⟨?_, ?_, ?_⟩
  · simp [onShowToast, truthyJson, getField, jsToString, containsIdF,
      mapFirstById, prependChildren, demoToastDoc, demoToastContainer, demoXssParse,
      demoXssNode, demoXssHtml, attrLookup]
  · have hb : hasClassToken [("onclick", "steal()")] "toast" = false := by decide
    have hb2 : hasClassToken [("onclick", "steal()")] "toast-body" = false := by decide
    exact injectToastFromHtml_noToastNode demoXssHtml demoXssParse demoToastDoc
      (by decide)
      (by simp [demoXssParse, findFirstByClass, demoXssNode, hb])
      (by simp [demoXssParse, findFirstByClass, demoXssNode, hb2])
  · have hev : isEventHandlerAttr "onclick" = true := by decide
    have hid : isEventHandlerAttr "id" = false := by decide
    simp [noHandlerAttrsF, demoXssNode, hev, hid]

/-- C9 as amended: a server-pushed show-toast trigger carrying a non-empty
html string has that markup parsed and inserted wholesale at the start of the
toast container (#global-toasts when present, else #app-toasts), without
locating a toast-shaped element and without sanitizing. -/
theorem onShowToast_inserts_wholesale (h : String) (parseHtml : String → List Node)
    (pre post cs : List Node) (tg : String) (a : List (String × String))
    (hh : (h == "") = false)
    (hid : attrLookup a "id" = some "app-toasts")
    (hpre : countId "app-toasts" pre = 0)
    (hnog : containsIdF "global-toasts" (pre ++ .elem tg a cs :: post) = false) :
    onShowToast (some (.obj ["html"] [.str h])) parseHtml (pre ++ .elem tg a cs :: post) =
      pre ++ .elem tg a (parseHtml h ++ cs) :: post := by
  have htr : truthyJson (JsonVal.str h) = true := by
    simp [truthyJson, hh]
  have hcont : containsIdF "app-toasts" (pre ++ .elem tg a cs :: post) = true := by
    apply (containsIdF_iff_countId _ _).mpr
    rw [countId_append]
    simp [countId, hid]
  have hbeq : (attrLookup a "id" == some "app-toasts") = true := by
    rw [hid]; decide
  have hmap : mapFirstById "app-toasts" (prependChildren (parseHtml h))
      (pre ++ .elem tg a cs :: post) = pre ++ .elem tg a (parseHtml h ++ cs) :: post := by
    rw [mapFirstById_append_zero _ _ _ _ hpre]
    simp [mapFirstById, hbeq, prependChildren]
  simp [onShowToast, truthyJson, getField, jsToString, hh, hnog, hcont, hmap]

/-- Witness for the amended C9 at a concrete payload and container. -/
theorem onShowToast_inserts_wholesale_witness :
    onShowToast (some (.obj ["html"] [.str demoXssHtml])) demoXssParse
        [Node.elem "DIV" [("id", "app-toasts")] []] =
      [Node.elem "DIV" [("id", "app-toasts")] [demoXssNode]] := by
  have h := onShowToast_inserts_wholesale demoXssHtml demoXssParse [] [] [] "DIV"
    [("id", "app-toasts")] (by decide) (by decide) (by simp [countId])
    (by simp [containsIdF, attrLookup])
  simpa [demoXssParse] using h

/-- Counterexample to C10: in fallback mode (no checkbox carries
data-consent-slug) the payload slug comes from the data-consent attribute,
not from the control's name attribute as claimed. -/
theorem collectGranularPayload_name_counterexample :
    collectGranularPayload demoFallbackBanner = [("ads", true)] ∧
      attrLookup (nodeAttrs demoFallbackBox) "name" = some "analytics" ∧
      collectGranularPayload demoFallbackBanner ≠ [("analytics", true)] := by
  have hcb : isCheckbox "INPUT"
      [("type", "checkbox"), ("data-consent", "ads"), ("name", "analytics"),
        ("checked", "")] = true := by decide
  have hcbd : isCheckbox "DIV" [("id", "consent-banner")] = false := by decide
  have hns : (attrLookup
      [("type", "checkbox"), ("data-consent", "ads"), ("name", "analytics"),
        ("checked", "")] "data-consent-slug").isSome = false := by decide
  have hrs : resolveSlug
      [("type", "checkbox"), ("data-consent", "ads"), ("name", "analytics"),
        ("checked", "")] = some "ads" := by decide
  have hck : (attrLookup
      [("type", "checkbox"), ("data-consent", "ads"), ("name", "analytics"),
        ("checked", "")] "checked").isSome = true := by decide
  have h1 : collectGranularPayload demoFallbackBanner = [("ads", true)] := by
    simp [collectGranularPayload, selectedCheckboxes, collectCheckboxes, isChecked,
      nodeAttrs, nodeChildren, demoFallbackBanner, demoFallbackBox, objInsert,
      hcb, hcbd, hns, hrs, hck]
  exact ⟨h1, by decide, by rw [h1]; decide⟩

theorem collectCheckboxes_true_filter (f : List Node) :
    collectCheckboxes true f =
      (collectCheckboxes false f).filter
        (fun c => (attrLookup (nodeAttrs c) "data-consent-slug").isSome) := by
  induction f using collectCheckboxes.induct true with
  | case1 => simp [collectCheckboxes]
  | case2 s ns ih => simpa [collectCheckboxes] using ih
  | case3 tg a ch ns ih1 ih2 =>
    by_cases hcb : isCheckbox tg a = true <;>
      by_cases hds : (attrLookup a "data-consent-slug").isSome = true <;>
      simp [collectCheckboxes, hcb, hds, List.filter_append, ih1, ih2, nodeAttrs]

theorem objInsert_key_mem (acc : List (String × Bool)) (k : String) (v : Bool)
    (p : String × Bool) (hp : p ∈ objInsert acc k v) :
    p.1 ∈ acc.map Prod.fst ∨ p.1 = k := by
  unfold objInsert at hp
  by_cases hf : (acc.find? (fun q => q.1 == k)).isSome = true
  · rw [if_pos hf] at hp
    obtain ⟨q, hq, hpe⟩ := List.mem_map.mp hp
    by_cases hqk : q.1 == k
    · right
      simp [hqk] at hpe
      simp [← hpe]
    · left
      simp [hqk] at hpe
      exact List.mem_map.mpr ⟨q, hq, by rw [← hpe]⟩
  · rw [if_neg hf] at hp
    rcases List.mem_append.mp hp with h | h
    · exact Or.inl (List.mem_map.mpr ⟨p, h, rfl⟩)
    · right
      simp at h
      simp [h]

theorem payload_fold_keys (cs : List Node) :
    ∀ acc p, p ∈ cs.foldl
        (fun acc c =>
          match resolveSlug (nodeAttrs c) with
          | none => acc
          | some slug => objInsert acc slug (isChecked c))
        acc →
      p.1 ∈ acc.map Prod.fst ∨ ∃ c ∈ cs, resolveSlug (nodeAttrs c) = some p.1 := by
  induction cs with
  | nil => intro acc p hp; exact Or.inl (List.mem_map.mpr ⟨p, hp, rfl⟩)
  | cons c cs ih =>
    intro acc p hp
    rw [List.foldl_cons] at hp
    cases hr : resolveSlug (nodeAttrs c) with
    | none =>
      rw [hr] at hp
      rcases ih acc p hp with h | ⟨c2, hc2, hs2⟩
      · exact Or.inl h
      · exact Or.inr ⟨c2, List.mem_cons_of_mem _ hc2, hs2⟩
    | some slug =>
      rw [hr] at hp
      rcases ih (objInsert acc slug (isChecked c)) p hp with h | ⟨c2, hc2, hs2⟩
      · obtain ⟨q, hq, hqe⟩ := List.mem_map.mp h
        rcases objInsert_key_mem acc slug (isChecked c) q hq with h2 | h2
        · exact Or.inl (hqe ▸ h2)
        · exact Or.inr ⟨c, List.mem_cons_self c cs, by rw [hr, ← h2, hqe]⟩
      · exact Or.inr ⟨c2, List.mem_cons_of_mem _ hc2, hs2⟩

/-- C10 as amended: when some checkbox inside the banner carries
data-consent-slug, exactly those checkboxes are collected (the slug-filtered
query is the plain query filtered on that attribute); when none does, every
checkbox is collected; a control's slug is resolved from data-consent-slug,
then data-consent_slug, then data-consent, and only then its name attribute
(empty values skipped at every step); every payload key stems from a selected
control that resolved to it, so controls yielding no slug contribute
nothing. -/
theorem granular_selection_spec (banner : Node) (a : List (String × String)) :
    (collectCheckboxes true (nodeChildren banner) =
      (collectCheckboxes false (nodeChildren banner)).filter
        (fun c => (attrLookup (nodeAttrs c) "data-consent-slug").isSome)) ∧
      ((collectCheckboxes true (nodeChildren banner)).length = 0 →
        selectedCheckboxes banner = collectCheckboxes false (nodeChildren banner)) ∧
      (0 < (collectCheckboxes true (nodeChildren banner)).length →
        selectedCheckboxes banner = collectCheckboxes true (nodeChildren banner)) ∧
      (attrLookup a "data-consent-slug" = none → attrLookup a "data-consent_slug" = none →
        attrLookup a "data-consent" = none →
        resolveSlug a =
          (match attrLookup a "name" with
            | some v => if v == "" then none else some v
            | none => none)) ∧
      (∀ v, attrLookup a "data-consent" = some v → (v == "") = false →
        attrLookup a "data-consent-slug" = none → attrLookup a "data-consent_slug" = none →
        resolveSlug a = some v) ∧
      (∀ p ∈ collectGranularPayload banner,
        ∃ c ∈ selectedCheckboxes banner, resolveSlug (nodeAttrs c) = some p.1) := by
  refine ⟨collectCheckboxes_true_filter _, ?_, ?_, ?_, ?_, ?_⟩
  · intro h
    simp [selectedCheckboxes, List.length_eq_zero.mp h]
  · intro h
    have : ¬ (collectCheckboxes true (nodeChildren banner)).length = 0 := by omega
    simp only [selectedCheckboxes]
    rw [if_neg (by simpa using this)]
  · intro h1 h2 h3
    simp [resolveSlug, firstTruthyAttr, h1, h2, h3]
  · intro v hv hne h1 h2
    simp [resolveSlug, firstTruthyAttr, h1, h2, hv, hne]
  · intro p hp
    have := payload_fold_keys (selectedCheckboxes banner) [] p
      (by simpa [collectGranularPayload] using hp)
    rcases this with h | h
    · simp at h
    · exact h

/-- Witness for the amended C10 at the concrete fallback banner. -/
theorem granular_selection_spec_witness :
    selectedCheckboxes demoFallbackBanner = [demoFallbackBox] ∧
      resolveSlug (nodeAttrs demoFallbackBox) = some "ads" := by
  have hcb : isCheckbox "INPUT"
      [("type", "checkbox"), ("data-consent", "ads"), ("name", "analytics"),
        ("checked", "")] = true := by decide
  have hcbd : isCheckbox "DIV" [("id", "consent-banner")] = false := by decide
  have hns : (attrLookup
      [("type", "checkbox"), ("data-consent", "ads"), ("name", "analytics"),
        ("checked", "")] "data-consent-slug").isSome = false := by decide
  have hlen : (collectCheckboxes true (nodeChildren demoFallbackBanner)).length = 0 := by
    simp [collectCheckboxes, nodeChildren, demoFallbackBanner, demoFallbackBox,
      hcb, hcbd, hns]
  have h := granular_selection_spec demoFallbackBanner (nodeAttrs demoFallbackBox)
  refine ⟨?_, ?_⟩
  · rw [h.2.1 hlen]
    simp [collectCheckboxes, nodeChildren, demoFallbackBanner, demoFallbackBox,
      hcb, hcbd]
  · exact h.2.2.2.2.1 "ads" (by decide) (by decide) (by decide) (by decide)

theorem debounce_fold (evs : List (Nat × List Node)) :
    ∀ (t : Nat) (d : List Node) (sv : List (List (String × Bool))),
      List.Chain' (fun e1 e2 : Nat × List Node => e2.1 < e1.1 + CONSENT_SAVE_DELAY)
        ((t, d) :: evs) →
      evs.foldl debStep ⟨d, some (t + CONSENT_SAVE_DELAY), sv⟩ =
        ⟨(((t, d) :: evs).getLast (by simp)).2,
          some ((((t, d) :: evs).getLast (by simp)).1 + CONSENT_SAVE_DELAY), sv⟩ := by
  induction evs with
  | nil => intro t d sv hchain; simp
  | cons e evs ih =>
    obtain ⟨et, ed⟩ := e
    intro t d sv hchain
    obtain ⟨h1, h2⟩ := List.chain'_cons.mp hchain
    have hstep : debStep ⟨d, some (t + CONSENT_SAVE_DELAY), sv⟩ (et, ed) =
        ⟨ed, some (et + CONSENT_SAVE_DELAY), sv⟩ := by
      have : ¬ t + CONSENT_SAVE_DELAY ≤ et := by
        simp only at h1
        omega
      simp [debStep, this]
    rw [List.foldl_cons, hstep, ih et ed sv h2]
    simp [List.getLast_cons]

/-- C8: a burst of checkbox changes whose gaps are all shorter than the
debounce delay triggers exactly one granular-save submission, and it carries
the payload of the banner state after the final toggle. -/
theorem debounce_collapses_bursts (doc0 : List Node)
    (events : List (Nat × List Node)) (banner : Node)
    (hne : events ≠ [])
    (hgap : List.Chain' (fun e1 e2 : Nat × List Node => e2.1 < e1.1 + CONSENT_SAVE_DELAY)
      events)
    (hbanner : findByIdF BANNER_ID (events.getLast hne).2 = some banner) :
    (debRun doc0 events).saves = [collectGranularPayload banner] := by
  obtain ⟨e0, evs, rfl⟩ : ∃ e0 evs, events = e0 :: evs := by
    cases events with
    | nil => simp at hne
    | cons e0 evs => exact ⟨e0, evs, rfl⟩
  obtain ⟨t0, d0⟩ := e0
  unfold debRun
  rw [List.foldl_cons]
  have hstep : debStep ⟨doc0, none, []⟩ (t0, d0) =
      ⟨d0, some (t0 + CONSENT_SAVE_DELAY), []⟩ := by
    simp [debStep]
  rw [hstep, debounce_fold evs t0 d0 [] hgap]
  simp [debFire, saveGranularPreferences, hbanner]

/-- Witness for C8: five toggles 20ms apart yield exactly one save request
carrying the final state of all five checkboxes. -/
theorem debounce_collapses_bursts_witness :
    (debRun [demoGranBanner false false false false false] demoBurstEvents).saves =
      [[("a", true), ("b", true), ("c", true), ("d", true), ("e", true)]] := by
  have hba : (attrLookup [("id", "consent-banner")] "id" == some BANNER_ID) = true := by
    decide
  have h := debounce_collapses_bursts [demoGranBanner false false false false false]
    demoBurstEvents (demoGranBanner true true true true true)
    (by simp [demoBurstEvents])
    (by simp [demoBurstEvents, List.chain'_cons, CONSENT_SAVE_DELAY])
    (by simp [demoBurstEvents, List.getLast, findByIdF, demoGranBanner, hba])
  rw [h]
  have hcb : ∀ v : String, isCheckbox "INPUT"
      [("type", "checkbox"), ("data-consent-slug", v), ("checked", "")] = true := by
    intro v
    simp [isCheckbox, attrLookup]
  have hss : ∀ v : String, (attrLookup
      [("type", "checkbox"), ("data-consent-slug", v), ("checked", "")]
        "data-consent-slug").isSome = true := by
    intro v
    simp [attrLookup]
  have hck : ∀ v : String, (attrLookup
      [("type", "checkbox"), ("data-consent-slug", v), ("checked", "")]
        "checked").isSome = true := by
    intro v
    simp [attrLookup]
  have hrs : ∀ v : String, (v == "") = false → resolveSlug
      [("type", "checkbox"), ("data-consent-slug", v), ("checked", "")] = some v := by
    intro v hv
    simp [resolveSlug, firstTruthyAttr, attrLookup, hv]
  have hcbd : isCheckbox "DIV" [("id", "consent-banner")] = false := by decide
  simp [collectGranularPayload, selectedCheckboxes, collectCheckboxes, isChecked,
    nodeAttrs, nodeChildren, demoGranBanner, demoChk, objInsert, hcb, hss, hck,
    hcbd, hrs "a" (by decide), hrs "b" (by decide), hrs "c" (by decide),
    hrs "d" (by decide), hrs "e" (by decide)]
